import Mathlib

/-!
Verification of the chart pipeline of the MQTT Monitoring System frontend
(file src/frontend/src/pages/EquipmentDetailPage.tsx).

The development embeds, as executable Lean definitions:
  * the value coercion formatValue (lines 544-559),
  * the chart-recompute effect (lines 654-708): unique sorted timestamps,
    the 30-second sliding window, row construction, the per-window sensor
    type set, null initialisation, and the value fill loop,
  * the feature registry updater passed to setAvailableFeatures
    (lines 620-626),
  * the historical load (loadHistoricalData, lines 452-495) and the live
    WebSocket sensor handler, as steps of a small view-state machine.

Modelling conventions:
  * JavaScript numbers that arise as parsed epochs are modelled as
    Option Int, with none standing for NaN.  The expression
    new Date(s).getTime() is abstracted at the parse boundary: the
    SensorDataPoint.timestamp field stores the parse result directly
    (some epoch, or none for a missing or unparseable timestamp string).
  * Array.prototype.sort with the comparator (a, b) => a - b is modelled
    as a stable left-to-right insertion sort in which a comparison
    involving NaN reports neither smaller nor greater, so the inserted
    element is never moved past it.  This matches the observable
    behaviour of the stable sorts of the major engines, where a NaN
    comparator result is treated as equality.
  * Numeric values are modelled as Rat; parseFloat is abstracted at the
    parse boundary as the Option Rat carried by a string value.
  * A chart row is a JavaScript object: an insertion-ordered list of
    key/value pairs with in-place overwrite on assignment to an existing
    key, and append on assignment to a fresh key.
-/

namespace MQTT

/-- Value carried by SensorDataPoint.value: number | string | object
(plus null).  A string carries its parseFloat result (none for NaN);
an object carries Object.values in key-insertion order. -/
inductive JSValue where
  | num (q : Rat)
  | str (parsed : Option Rat)
  | obj (vs : List JSValue)
  | null

/-- Numeric projection used to model the filter
(v => typeof v === "number") over Object.values. -/
def numOf : JSValue → Option Rat
  | .num q => some q
  | _ => none

/-- formatValue from EquipmentDetailPage.tsx (lines 544-559): a number is
returned as is; a string is parseFloat-ed with NaN collapsed to 0; a
non-null object yields its first numeric member (Object.values order) or
0 when none is numeric; anything else yields 0. -/
def formatValue : JSValue → Rat
  | .num q => q
  | .str parsed => parsed.getD 0
  | .obj vs =>
      match vs.filterMap numOf with
      | v :: _ => v
      | [] => 0
  | .null => 0

/-- One element of the event buffer (interface SensorDataPoint).  The
timestamp field stores the result of new Date(timestamp).getTime():
some epoch in milliseconds, or none when the string is missing or does
not parse (NaN).  Fields irrelevant to the chart pipeline
(equipment_id, unit, status) are omitted. -/
structure SensorDataPoint where
  timestamp : Option Int
  value : JSValue
  sensor_type : String

/-- Comparator (a, b) => a - b on epoch numbers, reduced to the question
the sort asks: is the result negative?  A NaN operand makes the
comparator return NaN, which is not negative. -/
def jsLt : Option Int → Option Int → Bool
  | some a, some b => a < b
  | _, _ => false

/-- Comparison t >= w on epoch numbers; any NaN operand makes it false. -/
def jsGe : Option Int → Option Int → Bool
  | some a, some b => b ≤ a
  | _, _ => false

/-- Stable insertion of one element: x is placed immediately before the
first element y with lt x y; elements that compare equal or
incomparable (NaN) are passed over. -/
def insertBy (lt : α → α → Bool) (x : α) : List α → List α
  | [] => [x]
  | y :: ys => if lt x y then x :: y :: ys else y :: insertBy lt x ys

/-- Array.prototype.sort(cmp) as a stable left-to-right insertion sort. -/
def jsSortBy (lt : α → α → Bool) (l : List α) : List α :=
  l.foldl (fun acc x => insertBy lt x acc) []

/-- Array.from(new Set(xs)): duplicates removed, first occurrence order
kept (Set uses SameValueZero, under which NaN equals NaN, matching
equality on Option Int). -/
def dedupFirst [DecidableEq α] (l : List α) : List α :=
  l.foldl (fun acc x => if x ∈ acc then acc else acc ++ [x]) []

/-- Step 1 of the chart-recompute effect: unique timestamps of the buffer
sorted with the comparator (a, b) => a - b. -/
def allTs (sd : List SensorDataPoint) : List (Option Int) :=
  jsSortBy jsLt (dedupFirst (sd.map (·.timestamp)))

/-- windowSize = 30 * 1000 milliseconds. -/
def windowSize : Int := 30 * 1000

/-- windowStart = latestTime - windowSize, where latestTime is the last
element of allTs.  An empty buffer gives undefined - 30000 = NaN, and a
NaN latest gives NaN; both are modelled as none. -/
def windowStart (sd : List SensorDataPoint) : Option Int :=
  match (allTs sd).getLast? with
  | some (some t) => some (t - windowSize)
  | _ => none

/-- Step 2: windowTs = allTs.filter(t => t >= windowStart).  An element
passes only when both it and windowStart are genuine epochs, so the
result is a list of Int. -/
def windowTs (sd : List SensorDataPoint) : List Int :=
  (allTs sd).filterMap (fun x =>
    match x with
    | some t => if jsGe (some t) (windowStart sd) then some t else none
    | none => none)

/-- Value stored at one key of a chart row object. -/
inductive CellVal where
  | num (q : Rat)
  | str (s : String)
  | null
deriving DecidableEq, Repr

/-- A chart row is a JavaScript object: key/value pairs in insertion
order, keys unique. -/
abbrev Row := List (String × CellVal)

/-- Key list of a row object (its own enumerable string keys), in
insertion order. -/
def objKeys (r : Row) : List String := r.map (·.1)

/-- The property names a plain object literal inherits from
Object.prototype (ECMA-262, including the Annex B accessors); the in
operator reports these on every row.  A row's prototype is never
changed by the pipeline: the only prototype-mutating assignment would
be row with key "__proto__" receiving an object or null, but the fill
loop assigns numbers only, and the null-init loop never assigns to
"__proto__" because its in test already sees the inherited accessor. -/
def protoNames : List String :=
  ["constructor", "hasOwnProperty", "isPrototypeOf",
   "propertyIsEnumerable", "toLocaleString", "toString", "valueOf",
   "__defineGetter__", "__defineSetter__", "__lookupGetter__",
   "__lookupSetter__", "__proto__"]

/-- Own-property test of a row object. -/
def objHasOwn (r : Row) (k : String) : Bool := decide (k ∈ objKeys r)

/-- The JavaScript test (k in r): the prototype chain is consulted, so
own keys and the names inherited from Object.prototype both answer
true. -/
def objHas (r : Row) (k : String) : Bool :=
  objHasOwn r k || decide (k ∈ protoNames)

/-- Read of an own property of r, none when k is not an own key. -/
def objGet (r : Row) (k : String) : Option CellVal :=
  (r.find? (fun kv => kv.1 == k)).map (·.2)

/-- Result of the full JavaScript read r[k]: an own cell value, a
member inherited from Object.prototype (a function, or the prototype
object itself for "__proto__"), or undefined. -/
inductive ReadVal where
  | own (v : CellVal)
  | inherited
  | undefinedRead
deriving DecidableEq, Repr

/-- The JavaScript read r[k] on a row, whose prototype the pipeline
never changes: an own key yields its value, an Object.prototype name
yields the inherited member, anything else is undefined. -/
def objRead (r : Row) (k : String) : ReadVal :=
  match objGet r k with
  | some v => .own v
  | none => if k ∈ protoNames then .inherited else .undefinedRead

/-- Ordinary own-property write: overwrite in place when the key
exists, append otherwise (shadowing any inherited data property). -/
def objSetOwn : Row → String → CellVal → Row
  | [], k, v => [(k, v)]
  | (k', v') :: r, k, v =>
      if k' = k then (k, v) :: r else (k', v') :: objSetOwn r k v

/-- Property write r[k] = v.  An assignment to "__proto__" reaches the
accessor inherited from Object.prototype (an own "__proto__" key is
never created by assignment), and that setter silently discards any
value that is neither an object nor null; the pipeline assigns only
numbers and nulls, and its sole null assignment site (the init loop) is
guarded by an in test that is always true for "__proto__", so the
discard branch is exact for every write the pipeline performs.  Any
other key is an ordinary own-property write. -/
def objSet (r : Row) (k : String) (v : CellVal) : Row :=
  if k = "__proto__" then r else objSetOwn r k v

/-- Step 3: the fresh row { t, i: idx, time: fmt(t) } built for one axis
instant.  The locale time formatting toLocaleTimeString is abstracted as
the function parameter fmt. -/
def mkRow (fmt : Int → String) (idx : Nat) (t : Int) : Row :=
  [("t", CellVal.num (t : Rat)), ("i", CellVal.num (idx : Rat)),
   ("time", CellVal.str (fmt t))]

/-- Rows for all axis instants in order, paired with their rowByT map key
(the instant the row was built from). -/
def mkRows (fmt : Int → String) (idx : Nat) : List Int → List (Int × Row)
  | [] => []
  | t :: ts => (t, mkRow fmt idx t) :: mkRows fmt (idx + 1) ts

/-- Step 3b: typesInWindow, the Set of sensor types of buffered events
whose parsed timestamp is a key of rowByT (that is, lies on the window
axis), in first-observation order.  A NaN timestamp is never a key. -/
def typesInWindow (sd : List SensorDataPoint) : List String :=
  dedupFirst (sd.filterMap (fun p =>
    match p.timestamp with
    | some t => if t ∈ windowTs sd then some p.sensor_type else none
    | none => none))

/-- Step 4: rows.forEach(r => types.forEach(st => if (!(st in r))
r[st] = null)). -/
def initNulls (types : List String) (r : Row) : Row :=
  types.foldl (fun r st => if objHas r st then r else objSet r st .null) r

/-- Effect of one buffered event p on the row stored under map key t:
when the parsed timestamp of p equals t, the cell of its sensor type is
overwritten with the coerced value; otherwise the row is untouched. -/
def fillStep (t : Int) (r : Row) (p : SensorDataPoint) : Row :=
  if p.timestamp = some t then
    objSet r p.sensor_type (CellVal.num (formatValue p.value))
  else r

/-- Step 5: the fill loop over the whole buffer in arrival order; each
event updates (through rowByT) exactly the row whose map key equals its
parsed timestamp, and events with a NaN or off-axis timestamp update
nothing. -/
def fillAll (sd : List SensorDataPoint) (keyed : List (Int × Row)) :
    List (Int × Row) :=
  sd.foldl (fun acc p => acc.map (fun kr => (kr.1, fillStep kr.1 kr.2 p))) keyed

/-- The chart recompute pipeline (steps 1 to 5) producing the ChartRow
list from the event buffer. -/
def pivot (fmt : Int → String) (sd : List SensorDataPoint) : List Row :=
  let keyed := (mkRows fmt 0 (windowTs sd)).map
    (fun kr => (kr.1, initNulls (typesInWindow sd) kr.2))
  (fillAll sd keyed).map (·.2)

/-- The whole effect body: the guard (sensorData.length === 0) returns
early and leaves chartData at its previous value; otherwise chartData is
replaced by the pivot output. -/
def chartRecompute (fmt : Int → String) (sd : List SensorDataPoint)
    (prevChart : List Row) : List Row :=
  if sd.isEmpty then prevChart else pivot fmt sd

/-- String comparator of the default Array.prototype.sort(). -/
def strLt (a b : String) : Bool := decide (a < b)

/-- Feature registry updater passed to setAvailableFeatures (lines
620-626): prev => prev.includes(st) ? prev : [...prev, st].sort(). -/
def observe (prev : List String) (st : String) : List String :=
  if st ∈ prev then prev else jsSortBy strLt (prev ++ [st])

/-- Comparator of the sort in loadHistoricalData:
(a, b) => new Date(a.timestamp).getTime() - new Date(b.timestamp).getTime(). -/
def ptLt (a b : SensorDataPoint) : Bool := jsLt a.timestamp b.timestamp

/-- The view state touched by the two data paths: the event buffer
(sensorData) and the feature registry (availableFeatures). -/
structure ViewState where
  sensorData : List SensorDataPoint
  availableFeatures : List String

/-- Both useState initialisers are the empty array. -/
def initialViewState : ViewState := ⟨[], []⟩

/-- loadHistoricalData (lines 452-495): with no stored messages it
returns before touching sensorData; otherwise it converts the messages,
sorts them by parsed timestamp and replaces sensorData.  It never calls
setAvailableFeatures. -/
def loadHistoricalData (s : ViewState) (msgs : List SensorDataPoint) :
    ViewState :=
  if msgs.isEmpty then s
  else { s with sensorData := jsSortBy ptLt msgs }

/-- Handling of one sensor of a live graph_update message: the feature
registry observes the sensor type and the point is appended to the
buffer. -/
def handleLiveSensor (s : ViewState) (p : SensorDataPoint) : ViewState :=
  { sensorData := s.sensorData ++ [p],
    availableFeatures := observe s.availableFeatures p.sensor_type }

/-- Inbound data operations of the view. -/
inductive ViewOp where
  | loadHist (msgs : List SensorDataPoint)
  | live (p : SensorDataPoint)

/-- One step of the view state machine. -/
def stepView (s : ViewState) : ViewOp → ViewState
  | .loadHist msgs => loadHistoricalData s msgs
  | .live p => handleLiveSensor s p

/-- The view state after a sequence of inbound operations, starting from
the initial empty state. -/
def runView (ops : List ViewOp) : ViewState :=
  ops.foldl stepView initialViewState

/-- Sensor types delivered by live WebSocket events of a run. -/
def liveTypes : List ViewOp → List String
  | [] => []
  | .live p :: ops => p.sensor_type :: liveTypes ops
  | .loadHist _ :: ops => liveTypes ops

/-- Derived form of the row the pipeline produces at position idx of the
axis, for axis instant t: the fresh row, null-initialised, then filled by
the whole buffer in order.  The structural lemma pivot_getD identifies
the pivot output with this per-row computation. -/
def rowAt (fmt : Int → String) (sd : List SensorDataPoint) (idx : Nat)
    (t : Int) : Row :=
  sd.foldl (fillStep t) (initNulls (typesInWindow sd) (mkRow fmt idx t))

/-- Ordering constraint carried by the sorted timestamp list: any two
genuine epochs appear in strictly increasing order; pairs involving NaN
are unconstrained, matching the implementation-defined placement of NaN
under the inconsistent comparator. -/
def WeakLt (u v : Option Int) : Prop :=
  ∀ a b, u = some a → v = some b → a < b

/-- Concrete display-time formatter used by closed statements; the
pipeline never inspects the formatted string. -/
def fmt0 : Int → String := fun _ => ""

/-- Concrete input: an event whose sensor type is the bookkeeping key
"t", exposing the key collision of the dynamic row object. -/
def sensorTEvent : SensorDataPoint := ⟨some 0, .num 5, "t"⟩

/-- Concrete input: an ordinary temperature event at epoch 1000. -/
def tempEvent : SensorDataPoint := ⟨some 1000, .num 7, "temperature"⟩

/-- Concrete input: an ordinary event with a valid timestamp. -/
def validEvent : SensorDataPoint := ⟨some 1000, .num 1, "a"⟩

/-- Concrete input: an event whose timestamp string does not parse, so
new Date(...).getTime() is NaN. -/
def invalidTsEvent : SensorDataPoint := ⟨none, .num 2, "b"⟩

/-- Concrete buffer for the C1 witness: one ordinary event. -/
def wbufC1 : List SensorDataPoint := [⟨some 0, .num 5, "temperature"⟩]

/-- Concrete buffer with two sensor types at distinct instants. -/
def wbufC3 : List SensorDataPoint :=
  [⟨some 0, .num 1, "pressure"⟩, ⟨some 1000, .num 7, "temperature"⟩]

/-- Concrete events for the C4 witness: same instant, same type,
different values. -/
def c4first : SensorDataPoint := ⟨some 0, .num 1, "x"⟩

/-- Second event of the C4 witness pair, appended later. -/
def c4second : SensorDataPoint := ⟨some 0, .num 2, "x"⟩

/-- Concrete buffer for the C5 witness: one event exactly at the window
bound (latest - 30000) and one at the latest instant. -/
def wbufC5 : List SensorDataPoint :=
  [⟨some 0, .num 1, "a"⟩, ⟨some 30000, .num 2, "a"⟩]

/-- Concrete historical message used by the C10 witness. -/
def histPressureEvent : SensorDataPoint := ⟨some 0, .num 3, "pressure"⟩

/-- Concrete live event used by the C10 witness. -/
def liveTempEvent : SensorDataPoint := ⟨some 1000, .num 4, "temperature"⟩

/-- Concrete operation sequence for the C10 witness: a historical load
followed by one live event. -/
def opsC10 : List ViewOp :=
  [.loadHist [histPressureEvent], .live liveTempEvent]

/-- Concrete input: an event whose sensor type is the inherited
Object.prototype name "toString". -/
def toStringEvent : SensorDataPoint := ⟨some 0, .num 1, "toString"⟩

/-- Concrete input: an ordinary pressure event at epoch 1000. -/
def pressureEvent : SensorDataPoint := ⟨some 1000, .num 2, "pressure"⟩

/-- Concrete buffer exposing the prototype-chain skip of the null-init
loop: a "toString" event at instant 0 and a pressure event at 1000. -/
def cbufToStr : List SensorDataPoint := [toStringEvent, pressureEvent]

/-- Concrete input: first of two events whose sensor type is
"__proto__". -/
def protoEvent1 : SensorDataPoint := ⟨some 0, .num 1, "__proto__"⟩

/-- Concrete input: the later "__proto__" event with a different
value. -/
def protoEvent2 : SensorDataPoint := ⟨some 0, .num 2, "__proto__"⟩

/-- Concrete buffer for the C4 counterexample: two same-instant
"__proto__" events whose writes the inherited accessor discards. -/
def cbufProto : List SensorDataPoint := [protoEvent1, protoEvent2]

/-! Generic lemmas about the sort and set models. -/

theorem insertBy_perm (lt : α → α → Bool) (x : α) (l : List α) :
    List.Perm (insertBy lt x l) (x :: l) := by
  induction l with
  | nil => exact List.Perm.refl _
  | cons y ys ih =>
    by_cases h : lt x y = true
    · simp [insertBy, h]
    · simp only [insertBy, h, if_false]
      exact (ih.cons y).trans (List.Perm.swap x y ys)

theorem mem_insertBy (lt : α → α → Bool) (x z : α) (l : List α) :
    z ∈ insertBy lt x l ↔ z = x ∨ z ∈ l := by
  rw [(insertBy_perm lt x l).mem_iff, List.mem_cons]

theorem foldl_insertBy_perm (lt : α → α → Bool) (l acc : List α) :
    List.Perm (List.foldl (fun acc x => insertBy lt x acc) acc l) (acc ++ l) := by
  induction l generalizing acc with
  | nil => simp
  | cons x xs ih =>
    have h1 := ih (insertBy lt x acc)
    have h2 : List.Perm (insertBy lt x acc ++ xs) (acc ++ x :: xs) := by
      refine ((insertBy_perm lt x acc).append_right xs).trans ?_
      exact List.perm_middle.symm
    exact (List.foldl_cons .. ▸ h1).trans h2

theorem jsSortBy_perm (lt : α → α → Bool) (l : List α) :
    List.Perm (jsSortBy lt l) l := by
  simpa [jsSortBy] using foldl_insertBy_perm lt l []

theorem pairwise_insertBy {R : α → α → Prop} (lt : α → α → Bool) (x : α)
    (l : List α)
    (h1 : ∀ y ∈ l, lt x y = true → R x y)
    (h2 : ∀ y ∈ l, lt x y = false → R y x)
    (htr : ∀ y ∈ l, ∀ z ∈ l, lt x y = true → R y z → R x z)
    (hl : l.Pairwise R) : (insertBy lt x l).Pairwise R := by
  induction l with
  | nil => simp [insertBy]
  | cons y ys ih =>
    rw [List.pairwise_cons] at hl
    by_cases hxy : lt x y = true
    · simp only [insertBy, hxy, if_true]
      refine List.Pairwise.cons ?_ (List.Pairwise.cons hl.1 hl.2)
      intro z hz
      rcases List.mem_cons.mp hz with h | hz
      · exact h ▸ h1 y (by simp) hxy
      · exact htr y (by simp) z (List.mem_cons_of_mem _ hz) hxy (hl.1 z hz)
    · simp only [insertBy, hxy, if_false]
      refine List.Pairwise.cons ?_ ?_
      · intro z hz
        rcases (mem_insertBy lt x z ys).mp hz with h | hz
        · exact h ▸ h2 y (by simp) (by simpa using hxy)
        · exact hl.1 z hz
      · exact ih (fun z hz => h1 z (List.mem_cons_of_mem _ hz))
          (fun z hz => h2 z (List.mem_cons_of_mem _ hz))
          (fun z hz w hw => htr z (List.mem_cons_of_mem _ hz) w
            (List.mem_cons_of_mem _ hw)) hl.2

theorem pairwise_jsSortBy {R : α → α → Prop} (lt : α → α → Bool)
    (m : List α) (hnd : m.Nodup)
    (hord : ∀ x ∈ m, ∀ y ∈ m, x ≠ y →
      (lt x y = true → R x y) ∧ (lt x y = false → R y x))
    (htr : ∀ x ∈ m, ∀ y ∈ m, ∀ z ∈ m, lt x y = true → R y z → R x z) :
    (jsSortBy lt m).Pairwise R := by
  suffices aux : ∀ (l acc : List α), (∀ y ∈ acc, y ∈ m) → (∀ y ∈ l, y ∈ m) →
      (acc ++ l).Nodup → acc.Pairwise R →
      (List.foldl (fun acc x => insertBy lt x acc) acc l).Pairwise R by
    exact aux m [] (by simp) (fun y hy => hy) (by simpa using hnd)
      (List.Pairwise.nil)
  intro l
  induction l with
  | nil => intro acc _ _ _ hp; simpa using hp
  | cons x xs ih =>
    intro acc haccm hlm hnodup hp
    have hxm : x ∈ m := hlm x (by simp)
    have hxacc : x ∉ acc := by
      intro hx
      rcases List.nodup_append.mp hnodup with ⟨_, _, hdisj⟩
      exact hdisj hx (by simp)
    rw [List.foldl_cons]
    refine ih (insertBy lt x acc) ?_ ?_ ?_ ?_
    · intro y hy
      rcases (mem_insertBy lt x y acc).mp hy with rfl | hy
      · exact hxm
      · exact haccm y hy
    · exact fun y hy => hlm y (List.mem_cons_of_mem _ hy)
    · refine List.Perm.nodup ?_ hnodup
      have hstep : List.Perm ((x :: acc) ++ xs) (insertBy lt x acc ++ xs) :=
        (insertBy_perm lt x acc).symm.append_right xs
      exact List.Perm.trans List.perm_middle hstep
    · refine pairwise_insertBy lt x acc ?_ ?_ ?_ hp
      · intro y hy hlt
        exact (hord x hxm y (haccm y hy) (fun h => hxacc (h ▸ hy))).1 hlt
      · intro y hy hlt
        exact (hord x hxm y (haccm y hy) (fun h => hxacc (h ▸ hy))).2 hlt
      · intro y hy z hz hlt hyz
        exact htr x hxm y (haccm y hy) z (haccm z hz) hlt hyz

theorem mem_foldl_dedup [DecidableEq α] (l acc : List α) (y : α) :
    y ∈ List.foldl (fun acc x => if x ∈ acc then acc else acc ++ [x]) acc l
      ↔ y ∈ acc ∨ y ∈ l := by
  induction l generalizing acc with
  | nil => simp
  | cons x xs ih =>
    rw [List.foldl_cons]
    by_cases h : x ∈ acc
    · simp only [h, if_true, ih, List.mem_cons]
      constructor
      · rintro (hy | hy)
        · exact Or.inl hy
        · exact Or.inr (Or.inr hy)
      · rintro (hy | rfl | hy)
        · exact Or.inl hy
        · exact Or.inl h
        · exact Or.inr hy
    · simp only [h, if_false, ih, List.mem_append, List.mem_singleton,
        List.mem_cons]
      tauto

theorem mem_dedupFirst [DecidableEq α] (l : List α) (y : α) :
    y ∈ dedupFirst l ↔ y ∈ l := by
  rw [dedupFirst, mem_foldl_dedup]
  simp

theorem nodup_foldl_dedup [DecidableEq α] (l acc : List α)
    (h : acc.Nodup) :
    (List.foldl (fun acc x => if x ∈ acc then acc else acc ++ [x]) acc l).Nodup := by
  induction l generalizing acc with
  | nil => simpa using h
  | cons x xs ih =>
    rw [List.foldl_cons]
    by_cases hx : x ∈ acc
    · simpa [hx] using ih acc h
    · simp only [hx, if_false]
      refine ih (acc ++ [x]) ?_
      simp [List.nodup_append, h, hx]

theorem dedupFirst_nodup [DecidableEq α] (l : List α) :
    (dedupFirst l).Nodup :=
  nodup_foldl_dedup l [] List.nodup_nil

theorem getD_map_of_lt (f : α → β) (l : List α) (i : Nat) (d' : β) (d : α)
    (h : i < l.length) : (l.map f).getD i d' = f (l.getD i d) := by
  induction l generalizing i with
  | nil => simp at h
  | cons x xs ih =>
    cases i with
    | zero => simp [List.getD]
    | succ n =>
      simp only [List.map_cons, List.getD_cons_succ]
      exact ih n (by simpa using h)

theorem getD_mem_of_lt (l : List α) (i : Nat) (d : α) (h : i < l.length) :
    l.getD i d ∈ l := by
  induction l generalizing i with
  | nil => simp at h
  | cons x xs ih =>
    cases i with
    | zero => simp [List.getD]
    | succ n =>
      simp only [List.getD_cons_succ]
      exact List.mem_cons_of_mem _ (ih n (by simpa using h))

theorem pairwise_getLast {R : α → α → Prop} :
    ∀ (l : List α) (h : l ≠ []), l.Pairwise R →
      ∀ x ∈ l, x = l.getLast h ∨ R x (l.getLast h)
  | [], h, _, _, _ => absurd rfl h
  | [y], _, _, x, hx => by
      simp only [List.mem_singleton] at hx
      simp [hx, List.getLast]
  | y :: z :: zs, h, hp, x, hx => by
      rw [List.pairwise_cons] at hp
      have hys : (z :: zs) ≠ [] := by simp
      have hlast : (y :: z :: zs).getLast h = (z :: zs).getLast hys :=
        List.getLast_cons hys
      rcases List.mem_cons.mp hx with heq | hx
      · right
        rw [hlast, heq]
        exact hp.1 _ (List.getLast_mem hys)
      · rw [hlast]
        exact pairwise_getLast (z :: zs) hys hp.2 x hx

/-! Lemmas about the time axis. -/

theorem allTs_pairwise (sd : List SensorDataPoint) :
    (allTs sd).Pairwise WeakLt := by
  refine pairwise_jsSortBy jsLt _ (dedupFirst_nodup _) ?_ ?_
  · rintro x - y - hxy
    constructor
    · intro hlt a b ha hb
      subst ha; subst hb
      simpa [jsLt] using hlt
    · intro hlt a b ha hb
      subst ha; subst hb
      have h1 : ¬ (b < a) := by simpa [jsLt] using hlt
      have h2 : b ≠ a := fun h => hxy (by rw [h])
      omega
  · rintro x - y - z - hlt hyz a c ha hc
    subst ha; subst hc
    rcases y with - | b
    · simp [jsLt] at hlt
    · have h1 : a < b := by simpa [jsLt] using hlt
      exact lt_trans h1 (hyz b c rfl rfl)

theorem mem_allTs (sd : List SensorDataPoint) (x : Option Int) :
    x ∈ allTs sd ↔ x ∈ sd.map (·.timestamp) := by
  rw [allTs, (jsSortBy_perm _ _).mem_iff, mem_dedupFirst]

theorem windowTs_pairwise (sd : List SensorDataPoint) :
    (windowTs sd).Pairwise (· < ·) := by
  rw [windowTs, List.pairwise_filterMap]
  refine (allTs_pairwise sd).imp ?_
  intro x y hw b hb b' hb'
  rcases x with - | u
  · simp at hb
  · rcases y with - | v
    · simp at hb'
    · have hub : u = b := by
        cases hj : jsGe (some u) (windowStart sd)
        · simp [hj] at hb
        · simpa [hj] using hb
      have hvb : v = b' := by
        cases hj : jsGe (some v) (windowStart sd)
        · simp [hj] at hb'
        · simpa [hj] using hb'
      subst hub; subst hvb
      exact hw u v rfl rfl

theorem mem_windowTs (sd : List SensorDataPoint) (t : Int) :
    t ∈ windowTs sd ↔
      some t ∈ allTs sd ∧ jsGe (some t) (windowStart sd) = true := by
  rw [windowTs, List.mem_filterMap]
  constructor
  · rintro ⟨x, hx, hfx⟩
    rcases x with - | u
    · simp at hfx
    · cases hj : jsGe (some u) (windowStart sd)
      · simp [hj] at hfx
      · have : u = t := by simpa [hj] using hfx
        subst this
        exact ⟨hx, hj⟩
  · rintro ⟨hx, hge⟩
    exact ⟨some t, hx, by simp [hge]⟩

theorem windowTs_valid (sd : List SensorDataPoint) (t : Int)
    (ht : t ∈ windowTs sd) : ∃ p ∈ sd, p.timestamp = some t := by
  have := (mem_windowTs sd t).mp ht
  rcases List.mem_map.mp ((mem_allTs sd (some t)).mp this.1) with ⟨p, hp, hpt⟩
  exact ⟨p, hp, hpt⟩

theorem allTs_isSome (sd : List SensorDataPoint)
    (hvalid : ∀ p ∈ sd, p.timestamp.isSome = true) :
    ∀ x ∈ allTs sd, x.isSome = true := by
  intro x hx
  rcases List.mem_map.mp ((mem_allTs sd x).mp hx) with ⟨p, hp, hpt⟩
  exact hpt ▸ hvalid p hp

theorem allTs_ne_nil (sd : List SensorDataPoint) (hne : sd ≠ []) :
    allTs sd ≠ [] := by
  rcases sd with - | ⟨p, rest⟩
  · exact absurd rfl hne
  · refine List.ne_nil_of_mem (a := p.timestamp) ?_
    rw [mem_allTs]
    simp

theorem windowStart_eq (sd : List SensorDataPoint)
    (hne : sd ≠ []) (hvalid : ∀ p ∈ sd, p.timestamp.isSome = true)
    (latest : Int) (hmem : some latest ∈ sd.map (·.timestamp))
    (hub : ∀ x ∈ sd.map (·.timestamp), jsGe (some latest) x = true) :
    windowStart sd = some (latest - windowSize) := by
  have hn : allTs sd ≠ [] := allTs_ne_nil sd hne
  have hlastmem : (allTs sd).getLast hn ∈ allTs sd := List.getLast_mem hn
  obtain ⟨m, hm⟩ : ∃ m, (allTs sd).getLast hn = some m := by
    have hsome := allTs_isSome sd hvalid _ hlastmem
    rcases h : (allTs sd).getLast hn with - | m
    · rw [h] at hsome; simp at hsome
    · exact ⟨m, rfl⟩
  have hmle : m ≤ latest := by
    have hx := hub ((allTs sd).getLast hn) ((mem_allTs sd _).mp hlastmem)
    rw [hm] at hx
    simpa [jsGe] using hx
  have hlem : latest ≤ m := by
    have hmem' : some latest ∈ allTs sd := (mem_allTs sd _).mpr hmem
    rcases pairwise_getLast (allTs sd) hn (allTs_pairwise sd) _ hmem' with
      heq | hlt
    · exact le_of_eq (Option.some.inj (heq.trans hm))
    · exact le_of_lt (hlt latest m rfl hm)
  have hml : m = latest := le_antisymm hmle hlem
  rw [windowStart, List.getLast?_eq_getLast _ hn, hm, hml]

theorem typesInWindow_nodup (sd : List SensorDataPoint) :
    (typesInWindow sd).Nodup :=
  dedupFirst_nodup _

theorem mem_typesInWindow (sd : List SensorDataPoint) (ty : String) :
    ty ∈ typesInWindow sd ↔
      ∃ p ∈ sd, p.sensor_type = ty ∧
        ∃ t, p.timestamp = some t ∧ t ∈ windowTs sd := by
  rw [typesInWindow, mem_dedupFirst, List.mem_filterMap]
  constructor
  · rintro ⟨p, hp, hfp⟩
    cases hts : p.timestamp with
    | none => rw [hts] at hfp; simp at hfp
    | some t =>
      rw [hts] at hfp
      by_cases hmem : t ∈ windowTs sd
      · have hty : p.sensor_type = ty := by simpa [hmem] using hfp
        exact ⟨p, hp, hty, t, hts, hmem⟩
      · simp [hmem] at hfp
  · rintro ⟨p, hp, hty, t, hts, hmem⟩
    exact ⟨p, hp, by simp [hts, hmem, hty]⟩

/-! Lemmas about the row object model. -/

theorem objGet_cons_self (k : String) (v : CellVal) (r : Row) :
    objGet ((k, v) :: r) k = some v := by
  rw [objGet, List.find?_cons_of_pos r (by simp)]
  simp

theorem objGet_cons_ne (k' : String) (v' : CellVal) (r : Row) (k : String)
    (h : k' ≠ k) : objGet ((k', v') :: r) k = objGet r k := by
  rw [objGet, List.find?_cons_of_neg r (by simpa using h), ← objGet]

theorem objGet_objSetOwn_self (r : Row) (k : String) (v : CellVal) :
    objGet (objSetOwn r k v) k = some v := by
  induction r with
  | nil => simp [objSetOwn, objGet]
  | cons kv r ih =>
    rcases kv with ⟨k', v'⟩
    by_cases h : k' = k
    · subst h
      simp only [objSetOwn, if_true]
      exact objGet_cons_self k' v r
    · simp only [objSetOwn, h, if_false]
      rw [objGet_cons_ne k' v' _ k h]
      exact ih

theorem objGet_objSet_self (r : Row) (k : String) (v : CellVal)
    (hk : k ≠ "__proto__") : objGet (objSet r k v) k = some v := by
  rw [objSet, if_neg hk]
  exact objGet_objSetOwn_self r k v

theorem objGet_objSetOwn_ne (r : Row) (k k' : String) (v : CellVal)
    (h : k' ≠ k) : objGet (objSetOwn r k v) k' = objGet r k' := by
  induction r with
  | nil =>
    simp only [objSetOwn]
    rw [objGet_cons_ne k v [] k' (fun he => h he.symm)]
  | cons kv r ih =>
    rcases kv with ⟨k'', v''⟩
    by_cases hk : k'' = k
    · subst hk
      simp only [objSetOwn, if_true]
      rw [objGet_cons_ne k'' v r k' (fun he => h he.symm),
        objGet_cons_ne k'' v'' r k' (fun he => h he.symm)]
    · simp only [objSetOwn, hk, if_false]
      by_cases hk' : k'' = k'
      · subst hk'
        rw [objGet_cons_self, objGet_cons_self]
      · rw [objGet_cons_ne k'' v'' _ k' hk', objGet_cons_ne k'' v'' r k' hk']
        exact ih

theorem objGet_objSet_ne (r : Row) (k k' : String) (v : CellVal)
    (h : k' ≠ k) : objGet (objSet r k v) k' = objGet r k' := by
  rw [objSet]
  by_cases hp : k = "__proto__"
  · rw [if_pos hp]
  · rw [if_neg hp]
    exact objGet_objSetOwn_ne r k k' v h

theorem objKeys_objSetOwn_of_own (r : Row) (k : String) (v : CellVal)
    (h : objHasOwn r k = true) : objKeys (objSetOwn r k v) = objKeys r := by
  induction r with
  | nil => simp [objHasOwn, objKeys] at h
  | cons kv r ih =>
    rcases kv with ⟨k', v'⟩
    by_cases hk : k' = k
    · subst hk
      simp [objSetOwn, objKeys]
    · simp only [objSetOwn, hk, if_false]
      have h' : objHasOwn r k = true := by
        simp only [objHasOwn, objKeys, List.map_cons, List.mem_cons] at h
        rcases decide_eq_true_eq.mp h with he | hm
        · exact absurd he.symm hk
        · exact decide_eq_true (by simpa [objHasOwn, objKeys] using hm)
      have hr := ih h'
      simp only [objKeys, List.map_cons] at hr ⊢
      rw [hr]

theorem objKeys_objSet_of_own (r : Row) (k : String) (v : CellVal)
    (h : objHasOwn r k = true) : objKeys (objSet r k v) = objKeys r := by
  rw [objSet]
  by_cases hp : k = "__proto__"
  · rw [if_pos hp]
  · rw [if_neg hp]
    exact objKeys_objSetOwn_of_own r k v h

theorem objKeys_objSetOwn_of_not (r : Row) (k : String) (v : CellVal)
    (h : objHasOwn r k = false) :
    objKeys (objSetOwn r k v) = objKeys r ++ [k] := by
  induction r with
  | nil => simp [objSetOwn, objKeys]
  | cons kv r ih =>
    rcases kv with ⟨k', v'⟩
    by_cases hk : k' = k
    · subst hk
      simp [objHasOwn, objKeys] at h
    · simp only [objSetOwn, hk, if_false]
      have h' : objHasOwn r k = false := by
        simp only [objHasOwn, objKeys, List.map_cons, List.mem_cons,
          decide_eq_false_iff_not, not_or] at h ⊢
        exact h.2
      have hr := ih h'
      simp only [objKeys, List.map_cons] at hr ⊢
      rw [hr]
      simp

theorem objKeys_objSet_of_not (r : Row) (k : String) (v : CellVal)
    (h : objHasOwn r k = false) (hk : k ≠ "__proto__") :
    objKeys (objSet r k v) = objKeys r ++ [k] := by
  rw [objSet, if_neg hk]
  exact objKeys_objSetOwn_of_not r k v h

theorem objHasOwn_iff_mem_keys (r : Row) (k : String) :
    objHasOwn r k = true ↔ k ∈ objKeys r := by
  simp [objHasOwn]

theorem objHas_true_iff (r : Row) (k : String) :
    objHas r k = true ↔ k ∈ objKeys r ∨ k ∈ protoNames := by
  simp [objHas, objHasOwn]

theorem objHas_false_iff (r : Row) (k : String) :
    objHas r k = false ↔ k ∉ objKeys r ∧ k ∉ protoNames := by
  rw [← Bool.not_eq_true, objHas_true_iff]
  simp [not_or]

theorem objHasOwn_congr (r1 r2 : Row) (k : String)
    (h : objKeys r1 = objKeys r2) : objHasOwn r1 k = objHasOwn r2 k := by
  simp [objHasOwn, h]

theorem objHas_congr (r1 r2 : Row) (k : String)
    (h : objKeys r1 = objKeys r2) : objHas r1 k = objHas r2 k := by
  simp [objHas, objHasOwn, h]

theorem initNulls_nil (r : Row) : initNulls [] r = r := rfl

theorem initNulls_cons (st : String) (rest : List String) (r : Row) :
    initNulls (st :: rest) r
      = initNulls rest (if objHas r st then r else objSet r st .null) := rfl

theorem objHas_false_not_proto (r : Row) (st : String)
    (hst : objHas r st = false) : st ≠ "__proto__" := by
  intro he
  refine ((objHas_false_iff r st).mp hst).2 ?_
  rw [he]
  decide

theorem objHas_false_own (r : Row) (st : String)
    (hst : objHas r st = false) : objHasOwn r st = false := by
  have := ((objHas_false_iff r st).mp hst).1
  simpa [objHasOwn] using this

theorem objHas_objSet_same_keys (r : Row) (st s : String) (v : CellVal)
    (hst : objHas r st = false) (hne : s ≠ st) :
    objHas (objSet r st v) s = objHas r s := by
  have hkeys := objKeys_objSet_of_not r st v (objHas_false_own r st hst)
    (objHas_false_not_proto r st hst)
  simp only [objHas, objHasOwn, hkeys, List.mem_append, List.mem_singleton]
  simp [hne]

theorem objKeys_initNulls (types : List String) (r : Row)
    (h : types.Nodup) :
    objKeys (initNulls types r)
      = objKeys r ++ types.filter (fun st => !objHas r st) := by
  induction types generalizing r with
  | nil => simp [initNulls_nil]
  | cons st rest ih =>
    rw [List.nodup_cons] at h
    rw [initNulls_cons]
    by_cases hst : objHas r st = true
    · rw [if_pos hst, ih r h.2, List.filter_cons]
      simp [hst]
    · have hst' : objHas r st = false := by simpa using hst
      rw [if_neg hst, ih _ h.2,
        objKeys_objSet_of_not r st _ (objHas_false_own r st hst')
          (objHas_false_not_proto r st hst')]
      have hfilter : rest.filter (fun s => !objHas (objSet r st .null) s)
          = rest.filter (fun s => !objHas r s) := by
        refine List.filter_congr ?_
        intro s hs
        rw [objHas_objSet_same_keys r st s _ hst' (fun he => h.1 (he ▸ hs))]
      rw [hfilter, List.filter_cons]
      simp [hst', List.append_assoc]

theorem objGet_initNulls (types : List String) (r : Row) (k : String)
    (h : types.Nodup) :
    objGet (initNulls types r) k
      = if k ∈ types ∧ objHas r k = false then some .null
        else objGet r k := by
  induction types generalizing r with
  | nil => simp [initNulls_nil]
  | cons st rest ih =>
    rw [List.nodup_cons] at h
    rw [initNulls_cons]
    by_cases hst : objHas r st = true
    · rw [if_pos hst, ih r h.2]
      by_cases hk : k = st
      · subst hk
        simp [hst, fun hm => h.1 hm]
      · simp only [List.mem_cons]
        by_cases hkr : k ∈ rest
        · simp [hkr]
        · simp [hkr, hk]
    · have hst' : objHas r st = false := by simpa using hst
      rw [if_neg hst, ih _ h.2]
      by_cases hk : k = st
      · subst hk
        have hknr : k ∉ rest := h.1
        rw [if_neg (by simp [hknr])]
        rw [objGet_objSet_self _ _ _ (objHas_false_not_proto r k hst')]
        simp [hst']
      · have hhas : objHas (objSet r st .null) k = objHas r k :=
          objHas_objSet_same_keys r st k _ hst' hk
        have hget : objGet (objSet r st .null) k = objGet r k :=
          objGet_objSet_ne r st k _ hk
        rw [hhas, hget]
        simp only [List.mem_cons]
        by_cases hkr : k ∈ rest
        · simp [hkr]
        · simp [hkr, hk]

theorem objHas_initNulls_of_mem (types : List String) (r : Row)
    (k : String) (h : types.Nodup) (hk : k ∈ types) :
    objHas (initNulls types r) k = true := by
  by_cases hr : objHas r k = true
  · rcases (objHas_true_iff r k).mp hr with hown | hproto
    · refine (objHas_true_iff _ _).mpr (Or.inl ?_)
      rw [objKeys_initNulls types r h]
      exact List.mem_append.mpr (Or.inl hown)
    · exact (objHas_true_iff _ _).mpr (Or.inr hproto)
  · have hr' : objHas r k = false := by simpa using hr
    refine (objHas_true_iff _ _).mpr (Or.inl ?_)
    rw [objKeys_initNulls types r h]
    refine List.mem_append.mpr (Or.inr (List.mem_filter.mpr ⟨hk, ?_⟩))
    simp [hr']

theorem objHasOwn_initNulls_of_mem (types : List String) (r : Row)
    (k : String) (h : types.Nodup) (hk : k ∈ types)
    (hp : k ∉ protoNames) :
    objHasOwn (initNulls types r) k = true := by
  rw [objHasOwn_iff_mem_keys, objKeys_initNulls types r h, List.mem_append]
  by_cases hown : objHasOwn r k = true
  · exact Or.inl ((objHasOwn_iff_mem_keys r k).mp hown)
  · have hr : objHas r k = false := by
      have hown' : objHasOwn r k = false := by simpa using hown
      simp [objHas, hown', hp]
    exact Or.inr (List.mem_filter.mpr ⟨hk, by simp [hr]⟩)

/-! Lemmas about row construction and the fill loop. -/

theorem objKeys_mkRow (fmt : Int → String) (idx : Nat) (t : Int) :
    objKeys (mkRow fmt idx t) = ["t", "i", "time"] := rfl

theorem objHasOwn_mkRow (fmt : Int → String) (idx : Nat) (t : Int)
    (k : String) :
    objHasOwn (mkRow fmt idx t) k
      = (k == "t" || k == "i" || k == "time") := by
  by_cases h1 : k = "t" <;> by_cases h2 : k = "i" <;>
    by_cases h3 : k = "time" <;>
    simp [objHasOwn, objKeys, mkRow, h1, h2, h3]

theorem objHas_mkRow (fmt : Int → String) (idx : Nat) (t : Int)
    (k : String) :
    objHas (mkRow fmt idx t) k
      = (k == "t" || k == "i" || k == "time"
          || decide (k ∈ protoNames)) := by
  rw [objHas, objHasOwn_mkRow]

theorem objHas_mkRow_false (fmt : Int → String) (idx : Nat) (t : Int)
    (k : String) (h1 : k ≠ "t") (h2 : k ≠ "i") (h3 : k ≠ "time")
    (hp : k ∉ protoNames) : objHas (mkRow fmt idx t) k = false := by
  rw [objHas_mkRow]
  simp [h1, h2, h3, hp]

theorem mkRows_length (fmt : Int → String) (idx : Nat) (ts : List Int) :
    (mkRows fmt idx ts).length = ts.length := by
  induction ts generalizing idx with
  | nil => simp [mkRows]
  | cons t ts ih => simp [mkRows, ih]

theorem mkRows_getD (fmt : Int → String) (ts : List Int) (idx i : Nat)
    (h : i < ts.length) :
    (mkRows fmt idx ts).getD i (0, [])
      = (ts.getD i 0, mkRow fmt (idx + i) (ts.getD i 0)) := by
  induction ts generalizing idx i with
  | nil => simp at h
  | cons t ts ih =>
    cases i with
    | zero => simp [mkRows, List.getD]
    | succ n =>
      simp only [mkRows, List.getD_cons_succ]
      rw [ih (idx + 1) n (by simpa using h)]
      have harith : idx + 1 + n = idx + (n + 1) := by omega
      rw [harith]

theorem mem_mkRows (fmt : Int → String) (idx0 : Nat) (ts : List Int)
    (kr : Int × Row) (h : kr ∈ mkRows fmt idx0 ts) :
    ∃ idx t, kr = (t, mkRow fmt idx t) ∧ t ∈ ts := by
  induction ts generalizing idx0 with
  | nil => simp [mkRows] at h
  | cons t ts ih =>
    rcases List.mem_cons.mp h with heq | hmem
    · exact ⟨idx0, t, heq, by simp⟩
    · rcases ih (idx0 + 1) hmem with ⟨idx, u, heq, hu⟩
      exact ⟨idx, u, heq, List.mem_cons_of_mem _ hu⟩

theorem fillAll_eq_map (sd : List SensorDataPoint)
    (keyed : List (Int × Row)) :
    fillAll sd keyed
      = keyed.map (fun kr => (kr.1, sd.foldl (fillStep kr.1) kr.2)) := by
  induction sd generalizing keyed with
  | nil => simp [fillAll]
  | cons p sd ih =>
    rw [fillAll, List.foldl_cons, ← fillAll, ih, List.map_map]
    rfl

theorem pivot_eq (fmt : Int → String) (sd : List SensorDataPoint) :
    pivot fmt sd
      = (mkRows fmt 0 (windowTs sd)).map
          (fun kr => sd.foldl (fillStep kr.1)
            (initNulls (typesInWindow sd) kr.2)) := by
  simp only [pivot]
  rw [fillAll_eq_map, List.map_map, List.map_map]
  rfl

theorem pivot_length (fmt : Int → String) (sd : List SensorDataPoint) :
    (pivot fmt sd).length = (windowTs sd).length := by
  rw [pivot_eq, List.length_map, mkRows_length]

theorem pivot_getD (fmt : Int → String) (sd : List SensorDataPoint)
    (i : Nat) (h : i < (windowTs sd).length) :
    (pivot fmt sd).getD i []
      = rowAt fmt sd i ((windowTs sd).getD i 0) := by
  rw [pivot_eq,
    getD_map_of_lt _ _ i [] ((0 : Int), ([] : Row))
      (by rw [mkRows_length]; exact h),
    mkRows_getD fmt _ 0 i h, Nat.zero_add]
  rfl

theorem pivot_mem (fmt : Int → String) (sd : List SensorDataPoint)
    (r : Row) (h : r ∈ pivot fmt sd) :
    ∃ idx t, t ∈ windowTs sd ∧
      r = sd.foldl (fillStep t)
        (initNulls (typesInWindow sd) (mkRow fmt idx t)) := by
  rw [pivot_eq] at h
  rcases List.mem_map.mp h with ⟨kr, hkr, hr⟩
  rcases mem_mkRows fmt 0 _ kr hkr with ⟨idx, t, hkr', ht⟩
  refine ⟨idx, t, ht, ?_⟩
  rw [← hr, hkr']

theorem objGet_fillFold_of_none (sd : List SensorDataPoint) (t : Int)
    (r : Row) (k : String)
    (h : ∀ p ∈ sd, ¬(p.timestamp = some t ∧ p.sensor_type = k)) :
    objGet (sd.foldl (fillStep t) r) k = objGet r k := by
  induction sd generalizing r with
  | nil => simp
  | cons p sd ih =>
    rw [List.foldl_cons, ih _ (fun q hq => h q (List.mem_cons_of_mem _ hq))]
    rw [fillStep]
    by_cases hp : p.timestamp = some t
    · rw [if_pos hp]
      have hne : p.sensor_type ≠ k := fun he => h p (by simp) ⟨hp, he⟩
      exact objGet_objSet_ne r p.sensor_type k _ (fun he => hne he.symm)
    · rw [if_neg hp]

theorem objGet_fillFold_last (l1 : List SensorDataPoint)
    (p : SensorDataPoint) (l2 : List SensorDataPoint) (t : Int) (r : Row)
    (k : String) (hpt : p.timestamp = some t) (hpk : p.sensor_type = k)
    (hkp : k ≠ "__proto__")
    (hlast : ∀ q ∈ l2, ¬(q.timestamp = some t ∧ q.sensor_type = k)) :
    objGet ((l1 ++ p :: l2).foldl (fillStep t) r) k
      = some (.num (formatValue p.value)) := by
  rw [List.foldl_append, List.foldl_cons,
    objGet_fillFold_of_none l2 t _ k hlast]
  rw [fillStep, if_pos hpt, hpk]
  exact objGet_objSet_self _ k _ hkp

theorem objKeys_fillFold (sd : List SensorDataPoint) (t : Int) (r : Row)
    (h : ∀ p ∈ sd, p.timestamp = some t →
      objHasOwn r p.sensor_type = true) :
    objKeys (sd.foldl (fillStep t) r) = objKeys r := by
  induction sd generalizing r with
  | nil => simp
  | cons p sd ih =>
    rw [List.foldl_cons]
    have hkeys : objKeys (fillStep t r p) = objKeys r := by
      rw [fillStep]
      by_cases hp : p.timestamp = some t
      · rw [if_pos hp]
        exact objKeys_objSet_of_own r _ _ (h p (by simp) hp)
      · rw [if_neg hp]
    rw [ih (fillStep t r p) ?later, hkeys]
    case later =>
      intro q hq hqt
      rw [objHasOwn_congr _ r _ hkeys]
      exact h q (List.mem_cons_of_mem _ hq) hqt

/-! Lemmas about the feature registry. -/

theorem mem_observe (reg : List String) (st y : String) :
    y ∈ observe reg st ↔ y ∈ reg ∨ y = st := by
  rw [observe]
  by_cases h : st ∈ reg
  · rw [if_pos h]
    constructor
    · exact Or.inl
    · rintro (hy | rfl)
      · exact hy
      · exact h
  · rw [if_neg h, (jsSortBy_perm _ _).mem_iff]
    simp

theorem observe_pairwise (reg : List String) (st : String)
    (h : reg.Pairwise (· < ·)) : (observe reg st).Pairwise (· < ·) := by
  rw [observe]
  by_cases hmem : st ∈ reg
  · rw [if_pos hmem]
    exact h
  · rw [if_neg hmem]
    refine pairwise_jsSortBy strLt _ ?_ ?_ ?_
    · have hnd : reg.Nodup := h.imp (fun hab => ne_of_lt hab)
      simp [List.nodup_append, hnd, hmem]
    · intro x _ y _ hxy
      constructor
      · intro hlt
        rw [strLt] at hlt
        exact of_decide_eq_true hlt
      · intro hlt
        rw [strLt] at hlt
        have hnlt : ¬ x < y := of_decide_eq_false hlt
        exact lt_of_le_of_ne (not_lt.mp hnlt) (fun he => hxy he.symm)
    · intro x _ y _ z _ hlt hyz
      rw [strLt] at hlt
      exact lt_trans (of_decide_eq_true hlt) hyz

/-! Claim theorems for the value coercion, the registry, the state
machine and the edge cases. -/

/-- C6: the value coercion formatValue is a total deterministic
function: a number is returned unchanged; a string yields its parsed
value, with an unparseable string (NaN parse) yielding 0; an object
yields its first numeric member among its values in defined order, or 0
when no member is numeric.  In particular the object with members iron
80 and carbon 3 coerces to 80, the string "12.5" coerces to 12.5, and
the unparseable string "abc" coerces to 0 (third conjunct). -/
theorem C6_formatValue_coercion :
    (∀ q : Rat, formatValue (.num q) = q) ∧
    (∀ q : Rat, formatValue (.str (some q)) = q) ∧
    (formatValue (.str none) = 0) ∧
    (∀ (pre : List JSValue) (q : Rat) (rest : List JSValue),
      (∀ v ∈ pre, numOf v = none) →
      formatValue (.obj (pre ++ .num q :: rest)) = q) ∧
    (∀ vs : List JSValue, (∀ v ∈ vs, numOf v = none) →
      formatValue (.obj vs) = 0) ∧
    formatValue (.obj [.num 80, .num 3]) = 80 ∧
    formatValue (.str (some 12.5)) = 12.5 := by
  refine ⟨fun q => rfl, fun q => rfl, rfl, ?_, ?_, rfl, rfl⟩
  · intro pre q rest hpre
    have h1 : (pre ++ (JSValue.num q) :: rest).filterMap numOf
        = q :: rest.filterMap numOf := by
      rw [List.filterMap_append, List.filterMap_eq_nil_iff.mpr hpre]
      simp [List.filterMap_cons, numOf]
    simp [formatValue, h1]
  · intro vs hvs
    simp [formatValue, List.filterMap_eq_nil_iff.mpr hvs]

/-- Witness for C6: the object clause applied at a concrete object whose
first member is non-numeric and whose first numeric member is 80. -/
theorem C6_formatValue_coercion_witness :
    formatValue (.obj [.str none, .num 80, .num 3]) = 80 :=
  C6_formatValue_coercion.2.2.2.1 [.str none] 80 [.num 3]
    (by intro v hv; simp only [List.mem_singleton] at hv; subst hv; rfl)

/-- C9: the empty buffer is a defined terminal state, not an error: the
recompute effect returns early and leaves chartData at its previous
value, which is the initial empty array at view start; the time axis of
the empty buffer is empty and even the unguarded pipeline yields the
empty row list. -/
theorem C9_empty_buffer (fmt : Int → String) (prev : List Row) :
    chartRecompute fmt [] prev = prev ∧
    windowTs [] = [] ∧
    pivot fmt [] = [] ∧
    chartRecompute fmt [] [] = [] :=
  ⟨rfl, rfl, rfl, rfl⟩

/-- C7: the feature registry grows monotonically for the life of the
view: every observed sensor type is in the registry after any call
sequence; observing an already-present type returns the registry
unchanged; and the registry is alphabetically sorted with no duplicates
(strict pairwise order). -/
theorem C7_feature_registry (calls : List String) :
    (∀ st ∈ calls, st ∈ List.foldl observe [] calls) ∧
    (∀ (reg : List String) (st : String), st ∈ reg → observe reg st = reg) ∧
    (List.foldl observe [] calls).Pairwise (· < ·) := by
  refine ⟨?_, ?_, ?_⟩
  · have aux : ∀ (cs reg : List String) (st : String),
        st ∈ reg ∨ st ∈ cs → st ∈ List.foldl observe reg cs := by
      intro cs
      induction cs with
      | nil =>
        intro reg st h
        rcases h with h | h
        · exact h
        · simp at h
      | cons c cs ih =>
        intro reg st h
        rw [List.foldl_cons]
        rcases h with h | h
        · exact ih _ st (Or.inl ((mem_observe reg c st).mpr (Or.inl h)))
        · rcases List.mem_cons.mp h with h' | h'
          · exact ih _ st (Or.inl ((mem_observe reg c st).mpr (Or.inr h')))
          · exact ih _ st (Or.inr h')
    exact fun st hst => aux calls [] st (Or.inr hst)
  · intro reg st h
    rw [observe, if_pos h]
  · have aux : ∀ (cs reg : List String), reg.Pairwise (· < ·) →
        (List.foldl observe reg cs).Pairwise (· < ·) := by
      intro cs
      induction cs with
      | nil => exact fun reg h => h
      | cons c cs ih =>
        intro reg h
        rw [List.foldl_cons]
        exact ih _ (observe_pairwise reg c h)
    exact aux calls [] List.Pairwise.nil

/-- Witness for C7 at a concrete call sequence. -/
theorem C7_feature_registry_witness :
    "pressure" ∈ List.foldl observe [] ["pressure", "flow"] ∧
    (List.foldl observe [] ["pressure", "flow"]).Pairwise (· < ·) :=
  ⟨(C7_feature_registry ["pressure", "flow"]).1 "pressure" (by decide),
   (C7_feature_registry ["pressure", "flow"]).2.2⟩

/-- C10: loading the historical seed never touches the feature
registry: loadHistoricalData leaves availableFeatures unchanged on every
state, and after any operation sequence from the initial state every
registry entry is the sensor type of some live WebSocket event; a type
appearing only in seeded historical events is therefore never added. -/
theorem C10_load_frame :
    (∀ (s : ViewState) (msgs : List SensorDataPoint),
      (loadHistoricalData s msgs).availableFeatures
        = s.availableFeatures) ∧
    (∀ (ops : List ViewOp) (ty : String),
      ty ∈ (runView ops).availableFeatures → ty ∈ liveTypes ops) := by
  have hframe : ∀ (s : ViewState) (msgs : List SensorDataPoint),
      (loadHistoricalData s msgs).availableFeatures = s.availableFeatures := by
    intro s msgs
    rw [loadHistoricalData]
    by_cases h : msgs.isEmpty = true
    · rw [if_pos h]
    · rw [if_neg h]
  refine ⟨hframe, ?_⟩
  have aux : ∀ (ops : List ViewOp) (s : ViewState) (ty : String),
      ty ∈ (ops.foldl stepView s).availableFeatures →
      ty ∈ s.availableFeatures ∨ ty ∈ liveTypes ops := by
    intro ops
    induction ops with
    | nil =>
      intro s ty h
      exact Or.inl (by simpa using h)
    | cons op ops ih =>
      intro s ty h
      rw [List.foldl_cons] at h
      rcases ih (stepView s op) ty h with hs | hl
      · rcases op with msgs | p
        · rw [stepView] at hs
          rw [hframe s msgs] at hs
          exact Or.inl hs
        · rw [stepView, handleLiveSensor] at hs
          rcases (mem_observe _ _ _).mp hs with hs' | hs'
          · exact Or.inl hs'
          · right
            rw [liveTypes, hs']
            exact List.mem_cons_self _ _
      · right
        rcases op with msgs | p
        · exact hl
        · exact List.mem_cons_of_mem _ hl
  intro ops ty h
  rcases aux ops initialViewState ty h with hs | hl
  · simp [initialViewState] at hs
  · exact hl

/-- Witness for C10: a historical load of a pressure event leaves the
registry empty, and after the concrete run the only registry entry is
the live temperature type. -/
theorem C10_load_frame_witness :
    (loadHistoricalData initialViewState
        [histPressureEvent]).availableFeatures
      = initialViewState.availableFeatures ∧
    "temperature" ∈ liveTypes opsC10 :=
  ⟨C10_load_frame.1 initialViewState [histPressureEvent],
   C10_load_frame.2 opsC10 "temperature" (by decide)⟩

/-- C8 (amended): every instant of the window axis is the parsed
timestamp of some buffered event, so an event with a missing or
unparseable timestamp (NaN) never itself appears on the axis; the buffer
is not modified by the pipeline.  The original claim further asserted
that the remaining valid events are unaffected, which is refuted by
C8_counterexample: the NaN participates in the sort and in the
latest-instant selection, and when it lands in the last position the
whole axis and output become empty. -/
theorem C8_invalid_timestamp_axis (sd : List SensorDataPoint) (t : Int)
    (ht : t ∈ windowTs sd) : ∃ p ∈ sd, p.timestamp = some t :=
  windowTs_valid sd t ht

/-- Witness for C8 at a concrete single-event buffer. -/
theorem C8_invalid_timestamp_axis_witness :
    ∃ p ∈ [validEvent], p.timestamp = some 1000 :=
  C8_invalid_timestamp_axis [validEvent] 1000 (by decide)

/-- Counterexample to C8 as stated: appending an event with an
unparseable timestamp after a valid event empties the axis and the
pivot output, so the rows derived from the remaining valid-timestamp
events are affected by its presence (the claim asserted they are not). -/
theorem C8_counterexample :
    windowTs [validEvent] = [1000] ∧
    windowTs [validEvent, invalidTsEvent] = [] ∧
    pivot fmt0 [validEvent, invalidTsEvent] = [] := by
  decide

/-- C1 (amended): for every non-empty buffer the pivot output has one
row per axis instant, in axis order: the row count always equals the
axis length, and provided no windowed sensor type is the bookkeeping
key "t" or "i", the i-th row carries the i-th axis instant in its t
field and its position i in its index field.  The proviso is forced by
C1_counterexample: a sensor type literally named "t" overwrites the
bookkeeping field in the fill loop. -/
theorem C1_row_axis_correspondence (fmt : Int → String)
    (sd : List SensorDataPoint) (hne : sd ≠ [])
    (hT : "t" ∉ typesInWindow sd) (hI : "i" ∉ typesInWindow sd) :
    (pivot fmt sd).length = (windowTs sd).length ∧
    ∀ i, i < (windowTs sd).length →
      objGet ((pivot fmt sd).getD i []) "t"
        = some (CellVal.num (((windowTs sd).getD i 0 : Int) : Rat)) ∧
      objGet ((pivot fmt sd).getD i []) "i"
        = some (CellVal.num (i : Rat)) := by
  refine ⟨pivot_length fmt sd, ?_⟩
  intro i hi
  have htmem : (windowTs sd).getD i 0 ∈ windowTs sd :=
    getD_mem_of_lt _ i 0 hi
  have hnodup := typesInWindow_nodup sd
  have hnofillT : ∀ p ∈ sd,
      ¬(p.timestamp = some ((windowTs sd).getD i 0) ∧
        p.sensor_type = "t") := by
    intro p hp hc
    exact hT ((mem_typesInWindow sd "t").mpr ⟨p, hp, hc.2, _, hc.1, htmem⟩)
  have hnofillI : ∀ p ∈ sd,
      ¬(p.timestamp = some ((windowTs sd).getD i 0) ∧
        p.sensor_type = "i") := by
    intro p hp hc
    exact hI ((mem_typesInWindow sd "i").mpr ⟨p, hp, hc.2, _, hc.1, htmem⟩)
  constructor
  · rw [pivot_getD fmt sd i hi, rowAt,
      objGet_fillFold_of_none sd _ _ _ hnofillT,
      objGet_initNulls _ _ _ hnodup, if_neg (fun hc => hT hc.1), mkRow]
    exact objGet_cons_self "t" _ _
  · rw [pivot_getD fmt sd i hi, rowAt,
      objGet_fillFold_of_none sd _ _ _ hnofillI,
      objGet_initNulls _ _ _ hnodup, if_neg (fun hc => hI hc.1), mkRow,
      objGet_cons_ne _ _ _ _ (by decide)]
    exact objGet_cons_self "i" _ _

/-- Witness for C1 at a concrete one-event buffer with an ordinary
sensor type. -/
theorem C1_row_axis_correspondence_witness :
    (pivot fmt0 wbufC1).length = (windowTs wbufC1).length ∧
    objGet ((pivot fmt0 wbufC1).getD 0 []) "t"
      = some (CellVal.num (((windowTs wbufC1).getD 0 0 : Int) : Rat)) ∧
    objGet ((pivot fmt0 wbufC1).getD 0 []) "i"
      = some (CellVal.num ((0 : Nat) : Rat)) := by
  have h := C1_row_axis_correspondence fmt0 wbufC1
    (by simp [wbufC1]) (by decide) (by decide)
  exact ⟨h.1, (h.2 0 (by decide)).1, (h.2 0 (by decide)).2⟩

/-- Counterexample to C1 as stated: a buffer holding one event whose
sensor type is the string "t".  The buffer is non-empty and the axis is
the single instant 0, but the fill loop overwrites the bookkeeping t
field of the row with the coerced sensor value 5, so the row's t field
no longer equals the axis instant. -/
theorem C1_counterexample :
    [sensorTEvent].length ≠ 0 ∧
    windowTs [sensorTEvent] = [0] ∧
    objGet ((pivot fmt0 [sensorTEvent]).getD 0 []) "t"
      ≠ some (CellVal.num (((windowTs [sensorTEvent]).getD 0 0 : Int) : Rat)) := by
  decide

/-- C2 (amended): provided no windowed sensor type is a name inherited
from Object.prototype, all rows of one pivot output carry the identical
key list, namely the bookkeeping keys "t", "i", "time" followed by the
windowed sensor types that are not themselves bookkeeping names; in
particular no row has a strict subset of the columns of another row.
When additionally no windowed sensor type is named "t", "i" or "time"
the non-bookkeeping columns are exactly typesInWindow, as the claim
stated.  Both provisos are forced by C2_counterexample: a sensor type
named "t" never becomes a column of its own, and a sensor type named
"toString" is skipped by the null-init (the in test sees the inherited
member) and becomes an own column only on the rows that have an event
for it, breaking uniformity. -/
theorem C2_uniform_columns (fmt : Int → String)
    (sd : List SensorDataPoint)
    (hproto : ∀ st ∈ typesInWindow sd, st ∉ protoNames) :
    (∀ r ∈ pivot fmt sd,
      objKeys r = ["t", "i", "time"]
        ++ (typesInWindow sd).filter
             (fun st => !(st == "t" || st == "i" || st == "time"))) ∧
    ("t" ∉ typesInWindow sd → "i" ∉ typesInWindow sd →
      "time" ∉ typesInWindow sd →
      ∀ r ∈ pivot fmt sd,
        objKeys r = ["t", "i", "time"] ++ typesInWindow sd) := by
  have hnodup := typesInWindow_nodup sd
  have hmain : ∀ r ∈ pivot fmt sd,
      objKeys r = ["t", "i", "time"]
        ++ (typesInWindow sd).filter
             (fun st => !(st == "t" || st == "i" || st == "time")) := by
    intro r hr
    rcases pivot_mem fmt sd r hr with ⟨idx, t, htmem, hreq⟩
    subst hreq
    rw [objKeys_fillFold, objKeys_initNulls _ _ hnodup, objKeys_mkRow]
    · congr 1
      refine List.filter_congr ?_
      intro st hst
      rw [objHas_mkRow]
      simp [hproto st hst]
    · intro p hp hpt
      have hmem' : p.sensor_type ∈ typesInWindow sd :=
        (mem_typesInWindow sd _).mpr ⟨p, hp, rfl, t, hpt, htmem⟩
      exact objHasOwn_initNulls_of_mem _ _ _ hnodup hmem' (hproto _ hmem')
  refine ⟨hmain, ?_⟩
  intro hT hI hTime r hr
  rw [hmain r hr]
  congr 1
  refine List.filter_eq_self.mpr ?_
  intro st hst
  have h1 : st ≠ "t" := fun he => hT (he ▸ hst)
  have h2 : st ≠ "i" := fun he => hI (he ▸ hst)
  have h3 : st ≠ "time" := fun he => hTime (he ▸ hst)
  simp [h1, h2, h3]

/-- Witness for C2 at a concrete two-event buffer with ordinary sensor
types: the first row's key list is the bookkeeping keys followed by
typesInWindow. -/
theorem C2_uniform_columns_witness :
    objKeys ((pivot fmt0 wbufC3).getD 0 [])
      = ["t", "i", "time"] ++ typesInWindow wbufC3 := by
  refine (C2_uniform_columns fmt0 wbufC3 (by decide)).2 (by decide)
    (by decide) (by decide) ((pivot fmt0 wbufC3).getD 0 []) ?_
  decide

/-- Counterexample to C2 as stated (and to its unconditional
uniformity): first, with a single event of sensor type "t",
typesInWindow is the one-element list containing "t", yet the key set
of the single row, bookkeeping keys excluded, is empty rather than
equal to typesInWindow.  Second, with a windowed sensor type named
"toString" (inherited from Object.prototype), the null-init is skipped
on every row and the fill loop creates the own key only on the row
that has a "toString" event, so the two rows carry different key lists
and the second row's columns are a strict subset of the first row's. -/
theorem C2_counterexample :
    (typesInWindow [sensorTEvent] = ["t"] ∧
      (pivot fmt0 [sensorTEvent]).map
          (fun r => (objKeys r).filter
            (fun k => !(k == "t" || k == "i" || k == "time")))
        = [[]]) ∧
    ("toString" ∈ typesInWindow cbufToStr ∧
      (pivot fmt0 cbufToStr).map objKeys
        = [["t", "i", "time", "pressure", "toString"],
           ["t", "i", "time", "pressure"]] ∧
      objKeys ((pivot fmt0 cbufToStr).getD 1 [])
        ≠ objKeys ((pivot fmt0 cbufToStr).getD 0 [])) := by
  decide

/-- C3 (amended): a windowed (instant, sensorType) pair for which the
buffer holds no event yields the cell null, never 0 and never an
omitted key, provided the sensor type is neither one of the bookkeeping
names "t", "i", "time" nor a name inherited from Object.prototype.
Both provisos are forced by C3_counterexample: for a type named "t" the
cell holds the row's own epoch, and for a type named "toString" the
null-init is skipped (the in test sees the inherited member), so the
cell is an omitted own key whose read yields the inherited function. -/
theorem C3_null_cells (fmt : Int → String) (sd : List SensorDataPoint)
    (t : Int) (ty : String) (i : Nat)
    (hi : i < (windowTs sd).length) (hti : (windowTs sd).getD i 0 = t)
    (hty : ty ∈ typesInWindow sd)
    (h1 : ty ≠ "t") (h2 : ty ≠ "i") (h3 : ty ≠ "time")
    (hp : ty ∉ protoNames)
    (hnone : ∀ p ∈ sd, ¬(p.timestamp = some t ∧ p.sensor_type = ty)) :
    objGet ((pivot fmt sd).getD i []) ty = some .null := by
  subst hti
  rw [pivot_getD fmt sd i hi, rowAt,
    objGet_fillFold_of_none sd _ _ _ hnone,
    objGet_initNulls _ _ _ (typesInWindow_nodup sd),
    if_pos ⟨hty, objHas_mkRow_false fmt i _ ty h1 h2 h3 hp⟩]

/-- Witness for C3: in the concrete buffer the temperature type is in
the window but has no observation at instant 0, so the first row's
temperature cell is null. -/
theorem C3_null_cells_witness :
    objGet ((pivot fmt0 wbufC3).getD 0 []) "temperature" = some .null :=
  C3_null_cells fmt0 wbufC3 0 "temperature" 0 (by decide) (by decide)
    (by decide) (by decide) (by decide) (by decide) (by decide)
    (by decide)

/-- Counterexample to C3 as stated: first, with events of type "t" at
instant 0 and of type "temperature" at instant 1000, the pair
(1000, "t") is on the axis, "t" is in typesInWindow, no buffered event
carries that pair, yet the cell holds the numeric epoch 1000 (the
bookkeeping field) rather than null.  Second, with the sensor type
"toString" windowed at instant 0 only, the pair (1000, "toString") has
no event, yet the cell is an omitted own key whose JavaScript read
yields the member inherited from Object.prototype, not null. -/
theorem C3_counterexample :
    (windowTs [sensorTEvent, tempEvent] = [0, 1000] ∧
      "t" ∈ typesInWindow [sensorTEvent, tempEvent] ∧
      (∀ p ∈ [sensorTEvent, tempEvent],
        ¬(p.timestamp = some 1000 ∧ p.sensor_type = "t")) ∧
      objGet ((pivot fmt0 [sensorTEvent, tempEvent]).getD 1 []) "t"
        = some (CellVal.num ((1000 : Int) : Rat))) ∧
    (windowTs cbufToStr = [0, 1000] ∧
      "toString" ∈ typesInWindow cbufToStr ∧
      (∀ p ∈ cbufToStr,
        ¬(p.timestamp = some 1000 ∧ p.sensor_type = "toString")) ∧
      objGet ((pivot fmt0 cbufToStr).getD 1 []) "toString" = none ∧
      objRead ((pivot fmt0 cbufToStr).getD 1 []) "toString"
        = ReadVal.inherited) := by
  decide

/-- C4 (amended): last-write-wins for every sensor type other than
"__proto__".  If p is the last event of the buffer carrying a given
windowed instant and sensor type, the corresponding cell holds the
coerced value of p, regardless of any earlier events for the same pair:
no averaging or accumulation occurs.  The exclusion of "__proto__" is
forced by C4_counterexample: a write to that key reaches the accessor
inherited from Object.prototype, which silently discards the numeric
value, so no cell ever reflects such an event. -/
theorem C4_last_write_wins (fmt : Int → String)
    (l1 l2 : List SensorDataPoint) (p : SensorDataPoint)
    (t : Int) (ty : String) (i : Nat)
    (hi : i < (windowTs (l1 ++ p :: l2)).length)
    (hti : (windowTs (l1 ++ p :: l2)).getD i 0 = t)
    (hpt : p.timestamp = some t) (hpty : p.sensor_type = ty)
    (hpp : ty ≠ "__proto__")
    (hlast : ∀ q ∈ l2, ¬(q.timestamp = some t ∧ q.sensor_type = ty)) :
    objGet ((pivot fmt (l1 ++ p :: l2)).getD i []) ty
      = some (.num (formatValue p.value)) := by
  subst hti
  rw [pivot_getD fmt _ i hi, rowAt]
  exact objGet_fillFold_last l1 p l2 _ _ ty hpt hpty hpp hlast

/-- Witness for C4: two events at the same instant with the same type
and the different values 1 and 2; the cell reflects the later-appended
value 2. -/
theorem C4_last_write_wins_witness :
    objGet ((pivot fmt0 [c4first, c4second]).getD 0 []) "x"
      = some (.num 2) := by
  have h := C4_last_write_wins fmt0 [c4first] [] c4second 0 "x" 0
    (by decide) (by decide) (by decide) (by decide) (by decide)
    (by intro q hq; exact absurd hq (List.not_mem_nil q))
  exact h

/-- Counterexample to C4 as stated: two same-instant "__proto__" events
with values 1 then 2.  The claim requires the cell for
(0, "__proto__") to equal the later coerced value 2, but both fill
writes are discarded by the inherited accessor: the row has no own
"__proto__" key and the JavaScript read yields the inherited prototype
object, not a number. -/
theorem C4_counterexample :
    windowTs cbufProto = [0] ∧
    "__proto__" ∈ typesInWindow cbufProto ∧
    protoEvent2.timestamp = some 0 ∧
    protoEvent2.sensor_type = "__proto__" ∧
    formatValue protoEvent2.value = 2 ∧
    objGet ((pivot fmt0 cbufProto).getD 0 []) "__proto__" = none ∧
    objRead ((pivot fmt0 cbufProto).getD 0 []) "__proto__"
      = ReadVal.inherited := by
  decide

/-- C5 (amended): for a non-empty buffer whose timestamps all parse,
with latest the maximum epoch instant of the buffer, the window axis is
strictly ascending and contains exactly the distinct buffered instants
at or after latest - 30000 milliseconds (an instant exactly at the
bound is included, one strictly before is excluded); and a sensor type
is a window column exactly when some buffered event carries it at an
axis instant, so an event strictly before the bound contributes no row
and no column.  The restriction to parseable timestamps is forced by
C5_counterexample: an unparseable timestamp can become latestTime (as
NaN) and empty the axis. -/
theorem C5_sliding_window (sd : List SensorDataPoint) (hne : sd ≠ [])
    (hvalid : ∀ p ∈ sd, p.timestamp.isSome = true)
    (latest : Int) (hmem : some latest ∈ sd.map (·.timestamp))
    (hub : ∀ x ∈ sd.map (·.timestamp), jsGe (some latest) x = true) :
    (windowTs sd).Pairwise (· < ·) ∧
    (∀ t : Int, t ∈ windowTs sd ↔
      ((∃ p ∈ sd, p.timestamp = some t) ∧ latest - windowSize ≤ t)) ∧
    (∀ ty : String, ty ∈ typesInWindow sd ↔
      ∃ p ∈ sd, p.sensor_type = ty ∧
        ∃ t, p.timestamp = some t ∧ t ∈ windowTs sd) := by
  have hws := windowStart_eq sd hne hvalid latest hmem hub
  refine ⟨windowTs_pairwise sd, ?_, fun ty => mem_typesInWindow sd ty⟩
  intro t
  rw [mem_windowTs, hws]
  constructor
  · rintro ⟨hmem', hge⟩
    refine ⟨?_, ?_⟩
    · rcases List.mem_map.mp ((mem_allTs sd _).mp hmem') with ⟨p, hp, hpt⟩
      exact ⟨p, hp, hpt⟩
    · simpa [jsGe] using hge
  · rintro ⟨⟨p, hp, hpt⟩, hle⟩
    refine ⟨?_, ?_⟩
    · rw [mem_allTs]
      exact List.mem_map.mpr ⟨p, hp, hpt⟩
    · simpa [jsGe] using hle

/-- Witness for C5: the buffer with instants 0 and 30000; the axis is
strictly sorted and the instant 0, exactly at the bound
latest - 30000, is included. -/
theorem C5_sliding_window_witness :
    (windowTs wbufC5).Pairwise (· < ·) ∧
    (0 : Int) ∈ windowTs wbufC5 ∧
    (30000 : Int) - windowSize ≤ (0 : Int) := by
  have h := C5_sliding_window wbufC5 (by simp [wbufC5]) (by decide) 30000
    (by decide) (by decide)
  refine ⟨h.1, ?_, by decide⟩
  refine (h.2.1 0).mpr ⟨⟨⟨some 0, .num 1, "a"⟩, ?_, rfl⟩, by decide⟩
  exact List.mem_cons_self _ _

/-- Counterexample to C5 as stated: in the buffer holding the
temperature event at epoch 1000 and an event with an unparseable
timestamp, the maximum epoch instant of the buffer is 1000 and it
satisfies the window bound, yet it is not on the axis: the NaN
timestamp has become latestTime and emptied the window. -/
theorem C5_counterexample :
    some (1000 : Int) ∈ [tempEvent, invalidTsEvent].map (·.timestamp) ∧
    (∀ a ∈ [tempEvent, invalidTsEvent].filterMap (·.timestamp),
      a ≤ 1000) ∧
    (1000 : Int) - windowSize ≤ 1000 ∧
    (1000 : Int) ∉ windowTs [tempEvent, invalidTsEvent] := by
  decide

end MQTT
